import Mathlib

/-
  Shallow embedding of the points/progression engine of the greenlife_app
  repository (src/app.py): the scoring function `calculate_points`, the
  forest progress stager (route `forest`), the challenge ledger
  (route `complete_challenge`) and the pickup lifecycle
  (routes `index` / `rider_accept` / `rider_complete`), together with
  theorems settling the specification claims about them.
-/

namespace Greenlife

/-- A Python value that can be passed as the `qty` argument of
`calculate_points`: an int, a string, or `None` (e.g. a missing form field). -/
inductive PyVal where
  | int (n : Int)
  | str (s : String)
  | none
deriving DecidableEq

/-- Digits of a decimal literal to a natural number; `Option.none` unless the
character list is nonempty and all digits. -/
def digitsToNat : List Char → Option Nat
  | [] => Option.none
  | cs =>
    if cs.all Char.isDigit then
      some (cs.foldl (fun a c => a * 10 + (c.toNat - 48)) 0)
    else Option.none

/-- Python `int(s)` on a string: surrounding whitespace stripped, optional
sign, then decimal digits; anything else raises `ValueError`, modelled as
`Option.none`.  (Digit-grouping underscores, accepted by CPython, are not
modelled; no claim exercises them.) -/
def pyStrToInt (s : String) : Option Int :=
  match ((s.toList.dropWhile Char.isWhitespace).reverse.dropWhile
      Char.isWhitespace).reverse with
  | [] => Option.none
  | c :: rest =>
    if c = '-' then (digitsToNat rest).map (fun n => -(n : Int))
    else if c = '+' then (digitsToNat rest).map (fun n => (n : Int))
    else (digitsToNat (c :: rest)).map (fun n => (n : Int))

/-- Python `int(qty)`: identity on ints; string parsing as `pyStrToInt`;
`TypeError` on `None`, modelled as `Option.none`. -/
def pyToInt : PyVal → Option Int
  | .int n => some n
  | .str s => pyStrToInt s
  | .none => Option.none

/-- The dict lookup `points_map.get(item, 1)` from `calculate_points`
(src/app.py lines 98-101, 104). -/
def points_map (item : String) : Int :=
  if item = "Plastic Bottles" then 2
  else if item = "Cardboard" then 5
  else if item = "Electronics" then 10
  else if item = "Metal" then 8
  else if item = "Glass" then 6
  else if item = "E-Waste" then 12
  else 1

/-- `calculate_points(item, qty)` from src/app.py lines 97-104:
`try: qty_int = int(qty) except (ValueError, TypeError): qty_int = 0`
then `points_map.get(item, 1) * qty_int`. -/
def calculate_points (item : String) (qty : PyVal) : Int :=
  let qty_int := (pyToInt qty).getD 0
  points_map item * qty_int

/-- Primary-key / first-match lookup in an association list
(`db.session.get`, `query.filter_by(...).first()`, `dict.get`). -/
def alookup {κ α : Type} [DecidableEq κ] : List (κ × α) → κ → Option α
  | [], _ => Option.none
  | (k, v) :: t, i => if i = k then some v else alookup t i

/-- The scoring lookup table exactly as the specification states it
(spec section 4.1), kept as data so that `calculate_points` can be compared
against the spec's formula. -/
def spec_table : List (String × Int) :=
  [("Plastic Bottles", 2), ("Cardboard", 5), ("Electronics", 10),
   ("Metal", 8), ("Glass", 6), ("E-Waste", 12)]

/-- The specification's scoring contract, written from the spec's words
(section 4.1): output = lookup(category) x quantity, unrecognized category
has unit score 1, uncoercible or missing quantity treated as 0. -/
def spec_score (c : String) (q : PyVal) : Int :=
  ((alookup spec_table c).getD 1) * ((pyToInt q).getD 0)

/-- One stage of the forest visualization: the tuples
`(emoji, label, threshold)` of `tree_stages` in the `forest` route. -/
structure Stage where
  emoji : String
  label : String
  threshold : Int
deriving DecidableEq

def seedling : Stage := ⟨"🌱", "Seedling", 0⟩

def sprout : Stage := ⟨"🌿", "Sprout", 5⟩

def smallTree : Stage := ⟨"🌳", "Small Tree", 10⟩

def growingForest : Stage := ⟨"🌲", "Growing Forest", 20⟩

def lushEcosystem : Stage := ⟨"🏞️", "Lush Ecosystem", 50⟩

/-- The `tree_stages` table from the `forest` route (src/app.py 254-260). -/
def tree_stages : List Stage :=
  [seedling, sprout, smallTree, growingForest, lushEcosystem]

/-- The scan loop of the `forest` route (src/app.py 265-273): walk the stage
table in order; while `level >= stage.threshold`, that stage becomes
`current` and the following table entry (or `None` at the end) becomes
`next`; stop at the first stage whose threshold exceeds `level`. -/
def forestScan (level : Int) :
    List Stage → Stage → Option Stage → Stage × Option Stage
  | [], cur, nxt => (cur, nxt)
  | s :: rest, cur, nxt =>
    if s.threshold ≤ level then forestScan level rest s rest.head?
    else (cur, nxt)

/-- The data computed by the `forest` route for a given tree level. -/
structure ForestView where
  level : Int
  stage : Stage
  next_stage : Option Stage
  progress : ℚ
deriving DecidableEq

/-- The `forest` route's stage computation (src/app.py 246-286): initial
`current = tree_stages[0]`, `next = tree_stages[1]`, then the scan loop,
then the progress percentage `(level - current.threshold) /
(next.threshold - current.threshold) * 100` when `next` exists and the
threshold gap is positive, else 0.  Python float arithmetic is modelled
exactly over the rationals. -/
def forest (level : Int) : ForestView :=
  let cn := forestScan level tree_stages seedling (some sprout)
  let current_stage := cn.1
  let next_stage := cn.2
  let progress_percent : ℚ :=
    match next_stage with
    | some ns =>
      let level_range := ns.threshold - current_stage.threshold
      let progress_in_range := level - current_stage.threshold
      if 0 < level_range then
        ((progress_in_range : ℚ) / (level_range : ℚ)) * 100
      else 0
    | Option.none => 0
  ⟨level, current_stage, next_stage, progress_percent⟩

/-- The table entry following a given stage, written from the spec's words
(section 4.4): "The following stage in table order -> next (None if current
is the last entry)". -/
def specNextStage (st : Stage) : Option Stage :=
  match tree_stages.dropWhile (fun x => x ≠ st) with
  | _ :: y :: _ => some y
  | _ => Option.none

/-- The `User` model (src/app.py 23-31), restricted to the columns the core
mutates: `points` (default 0), `address` (nullable), `tree_level`
(default 0). -/
structure UserRec where
  points : Int
  address : Option String
  tree_level : Int
deriving DecidableEq

/-- The `status` column of a `Pickup`. -/
inductive PStatus where
  | requested
  | assigned
  | completed
deriving DecidableEq

/-- The `Pickup` model (src/app.py 53-63). -/
structure PickupRec where
  user_id : Nat
  item_type : String
  quantity : Int
  address : String
  preferred_date : String
  preferred_time : String
  status : PStatus
  rider_id : Option Nat
deriving DecidableEq

/-- The `Challenge` model (src/app.py 65-69). -/
structure ChallengeRec where
  title : String
  description : String
  points_reward : Int
deriving DecidableEq

/-- The persistent store: users, pickups and challenges keyed by their
integer primary keys, plus the `UserChallenge` rows as
(user_id, challenge_id) pairs.  `next_pickup_id` models the
auto-incremented primary key of `Pickup`. -/
structure AppState where
  users : List (Nat × UserRec)
  pickups : List (Nat × PickupRec)
  next_pickup_id : Nat
  challenges : List (Nat × ChallengeRec)
  user_challenges : List (Nat × Nat)
deriving DecidableEq

/-- Overwrite the row with the given primary key (the ORM mutating a fetched
row in place). -/
def aupdate {κ α : Type} [DecidableEq κ] (l : List (κ × α)) (k : κ) (v : α) :
    List (κ × α) :=
  l.map (fun e => if e.1 = k then (e.1, v) else e)

def findUser (s : AppState) (uid : Nat) : Option UserRec :=
  alookup s.users uid

/-- The stored point balance of a user (0 when the row is absent — in the
app every operation runs on behalf of an existing logged-in principal). -/
def getPoints (s : AppState) (uid : Nat) : Int :=
  ((findUser s uid).map UserRec.points).getD 0

/-- Pickup creation, the POST branch of `index` (src/app.py 131-152):
resolve the effective address with Python truthiness
(`request.form.get('address') or current_user.address or ''`), update the
user's stored address when it changed, add a `requested` pickup, and
increment `tree_level` by exactly 1. -/
def createPickup (s : AppState) (uid : Nat) (item : String) (qty : Int)
    (addr date time_ : String) : AppState :=
  match findUser s uid with
  | Option.none => s
  | some u =>
    let addr_eff := if addr ≠ "" then addr else u.address.getD ""
    let u1 :=
      if addr_eff ≠ "" ∧ (u.address.getD "" = "" ∨ u.address ≠ some addr_eff)
      then { u with address := some addr_eff } else u
    let u2 := { u1 with tree_level := u1.tree_level + 1 }
    let p : PickupRec :=
      ⟨uid, item, qty, addr_eff, date, time_, .requested, Option.none⟩
    { s with
      users := aupdate s.users uid u2
      pickups := s.pickups ++ [(s.next_pickup_id, p)]
      next_pickup_id := s.next_pickup_id + 1 }

/-- Outcome of `rider_accept`. -/
inductive ClaimResult where
  | ok
  | notFound
  | alreadyClaimed
deriving DecidableEq

/-- `rider_accept` (src/app.py 359-376): 404-style flash when the pickup is
missing; "Pickup already assigned" when its status is not `requested`;
otherwise assign the calling rider and set status to `assigned`. -/
def claimPickup (s : AppState) (rid : Nat) (pid : Nat) :
    AppState × ClaimResult :=
  match alookup s.pickups pid with
  | Option.none => (s, .notFound)
  | some p =>
    if p.status ≠ .requested then (s, .alreadyClaimed)
    else
      let p1 := { p with rider_id := some rid, status := PStatus.assigned }
      ({ s with pickups := aupdate s.pickups pid p1 }, .ok)

/-- Outcome of `rider_complete`. -/
inductive CompleteResult where
  | ok
  | notFound
  | notOwned
deriving DecidableEq

/-- `rider_complete` (src/app.py 378-404): missing pickup flashes not-found;
a pickup whose `rider_id` differs from the calling rider flashes
"not assigned to you"; otherwise the status is set to `completed` and, when
the owning user row exists, `calculate_points(item_type, quantity)` is added
to that user's balance.  Note the source checks only `rider_id`, never the
current status. -/
def completePickup (s : AppState) (rid : Nat) (pid : Nat) :
    AppState × CompleteResult :=
  match alookup s.pickups pid with
  | Option.none => (s, .notFound)
  | some p =>
    if p.rider_id ≠ some rid then (s, .notOwned)
    else
      let p1 := { p with status := PStatus.completed }
      let s1 := { s with pickups := aupdate s.pickups pid p1 }
      match findUser s1 p.user_id with
      | Option.none => (s1, .ok)
      | some u =>
        let points_to_add := calculate_points p.item_type (.int p.quantity)
        let u1 := { u with points := u.points + points_to_add }
        ({ s1 with users := aupdate s1.users p.user_id u1 }, .ok)

/-- Outcome of `complete_challenge`. -/
inductive ChallengeResult where
  | ok
  | notFound
  | alreadyCompleted
deriving DecidableEq

/-- `complete_challenge` (src/app.py 221-244): not-found when the challenge
id has no row; already-completed when a `UserChallenge` row exists for the
pair; otherwise insert the completion row and credit `points_reward` to the
user, committed together. -/
def completeChallenge (s : AppState) (uid : Nat) (cid : Nat) :
    AppState × ChallengeResult :=
  match alookup s.challenges cid with
  | Option.none => (s, .notFound)
  | some ch =>
    if (uid, cid) ∈ s.user_challenges then (s, .alreadyCompleted)
    else
      let s1 := { s with user_challenges := s.user_challenges ++ [(uid, cid)] }
      match findUser s1 uid with
      | Option.none => (s1, .ok)
      | some u =>
        let u1 := { u with points := u.points + ch.points_reward }
        ({ s1 with users := aupdate s1.users uid u1 }, .ok)

/-- One externally triggered core operation. -/
inductive Op where
  | createPickup (uid : Nat) (item : String) (qty : Int)
      (addr date time_ : String)
  | claimPickup (rid pid : Nat)
  | completePickup (rid pid : Nat)
  | completeChallenge (uid cid : Nat)
deriving DecidableEq

/-- The state transition of one operation (results discarded). -/
def step (s : AppState) : Op → AppState
  | .createPickup uid item qty a d t => Greenlife.createPickup s uid item qty a d t
  | .claimPickup rid pid => (Greenlife.claimPickup s rid pid).1
  | .completePickup rid pid => (Greenlife.completePickup s rid pid).1
  | .completeChallenge uid cid => (Greenlife.completeChallenge s uid cid).1

/-- Run a sequence of operations from a state. -/
def run (s : AppState) (ops : List Op) : AppState :=
  ops.foldl step s

/-- Sum of Scoring Function outputs over a user's `completed` pickups. -/
def completedPickupScore (s : AppState) (uid : Nat) : Int :=
  (s.pickups.filter
      (fun e => e.2.user_id == uid && e.2.status == PStatus.completed)).foldl
    (fun acc e => acc + calculate_points e.2.item_type (.int e.2.quantity)) 0

/-- Sum of the reward values of the distinct challenges a user has
completed, per the `UserChallenge` rows. -/
def challengeRewardSum (s : AppState) (uid : Nat) : Int :=
  (s.user_challenges.filter (fun uc => uc.1 == uid)).foldl
    (fun acc uc =>
      acc + (((alookup s.challenges uc.2).map ChallengeRec.points_reward).getD 0))
    0

/-- A concrete store: one user (id 1, zero balance), no pickups, one
challenge worth 20 points, no completions. -/
def initState : AppState :=
  ⟨[(1, ⟨0, Option.none, 0⟩)], [], 1,
   [(1, ⟨"Waste-Free Wednesday",
         "Go a full day without using any single-use plastic.", 20⟩)], []⟩

/-- Create a Metal x2 pickup, have rider 1 claim and complete it, then have
the same rider complete it a second time. -/
def doubleCompleteTrace : List Op :=
  [.createPickup 1 "Metal" 2 "addr" "2024-01-01" "10:00",
   .claimPickup 1 1, .completePickup 1 1, .completePickup 1 1]

/-- Create a Metal x2 pickup, have rider 1 claim and complete it (once). -/
def singleCompleteTrace : List Op :=
  [.createPickup 1 "Metal" 2 "addr" "2024-01-01" "10:00",
   .claimPickup 1 1, .completePickup 1 1]

/-- Create a Metal pickup with quantity -1 (the POST handler coerces the
form field with `int(...)` and never validates sign), claim and complete. -/
def negativeQtyTrace : List Op :=
  [.createPickup 1 "Metal" (-1) "addr" "2024-01-01" "10:00",
   .claimPickup 1 1, .completePickup 1 1]

/-- A concrete store with one user, one `requested` pickup (id 1) and one
challenge, used to instantiate the contract theorems. -/
def wState : AppState :=
  ⟨[(1, ⟨0, Option.none, 0⟩)],
   [(1, ⟨1, "Metal", 2, "a", "2024-01-01", "10:00",
         PStatus.requested, Option.none⟩)],
   2, [(1, ⟨"c", "d", 20⟩)], []⟩

/-- The data-model constraints of spec section 3 that the routes themselves
never enforce: every stored pickup quantity and every challenge reward is
non-negative. -/
def StateOk (s : AppState) : Prop :=
  (∀ e ∈ s.pickups, 0 ≤ e.2.quantity) ∧
  (∀ e ∈ s.challenges, 0 ≤ e.2.points_reward)

instance (s : AppState) : Decidable (StateOk s) :=
  inferInstanceAs (Decidable ((∀ e ∈ s.pickups, 0 ≤ e.2.quantity) ∧
    (∀ e ∈ s.challenges, 0 ≤ e.2.points_reward)))

/-- An operation respecting the spec's data model: a created pickup carries
a non-negative quantity. -/
def OpOk : Op → Prop
  | .createPickup _ _ qty _ _ _ => 0 ≤ qty
  | .claimPickup _ _ => True
  | .completePickup _ _ => True
  | .completeChallenge _ _ => True

instance : DecidablePred OpOk := fun op =>
  match op with
  | .createPickup _ _ qty _ _ _ => inferInstanceAs (Decidable (0 ≤ qty))
  | .claimPickup _ _ => inferInstanceAs (Decidable True)
  | .completePickup _ _ => inferInstanceAs (Decidable True)
  | .completeChallenge _ _ => inferInstanceAs (Decidable True)

/- Association-list lemmas. -/

theorem alookup_mem {κ α : Type} [DecidableEq κ] {l : List (κ × α)} {k : κ}
    {v : α} (h : alookup l k = some v) : (k, v) ∈ l := by
  induction l with
  | nil => simp [alookup] at h
  | cons e t ih =>
    obtain ⟨a, b⟩ := e
    by_cases hk : k = a
    · subst hk
      simp [alookup] at h
      simp [h]
    · simp [alookup, hk] at h
      exact List.mem_cons_of_mem _ (ih h)

theorem aupdate_cons {κ α : Type} [DecidableEq κ] (a : κ) (b : α)
    (t : List (κ × α)) (k : κ) (v : α) :
    aupdate ((a, b) :: t) k v
      = (if a = k then (a, v) else (a, b)) :: aupdate t k v := by
  by_cases hk : a = k <;> simp [aupdate, hk]

theorem alookup_aupdate {κ α : Type} [DecidableEq κ] (l : List (κ × α))
    (k : κ) (v : α) :
    alookup (aupdate l k v) k = (alookup l k).map (fun _ => v) := by
  induction l with
  | nil => rfl
  | cons e t ih =>
    obtain ⟨a, b⟩ := e
    by_cases hk : a = k
    · subst hk
      rw [aupdate_cons, if_pos rfl]
      simp [alookup]
    · rw [aupdate_cons, if_neg hk]
      simp [alookup, Ne.symm hk, ih]

theorem alookup_aupdate_ne {κ α : Type} [DecidableEq κ] (l : List (κ × α))
    (k j : κ) (v : α) (hjk : j ≠ k) :
    alookup (aupdate l k v) j = alookup l j := by
  induction l with
  | nil => rfl
  | cons e t ih =>
    obtain ⟨a, b⟩ := e
    by_cases hk : a = k
    · subst hk
      rw [aupdate_cons, if_pos rfl]
      simp [alookup, hjk, ih]
    · rw [aupdate_cons, if_neg hk]
      by_cases hj : j = a
      · subst hj
        simp [alookup, ih]
      · simp [alookup, hj, ih]

theorem mem_aupdate {κ α : Type} [DecidableEq κ] {l : List (κ × α)} {k : κ}
    {v : α} {e : κ × α} (h : e ∈ aupdate l k v) :
    e.2 = v ∨ e ∈ l := by
  unfold aupdate at h
  obtain ⟨e0, he0, heq⟩ := List.mem_map.mp h
  by_cases hk : e0.1 = k
  · simp [hk] at heq
    subst heq
    exact Or.inl rfl
  · simp [hk] at heq
    subst heq
    exact Or.inr he0

/- Scoring-table lemmas. -/

theorem points_map_pos (item : String) : 0 < points_map item := by
  unfold points_map
  split_ifs <;> norm_num

/-- Claim C1: each user's stored point balance equals the sum of the Scoring
Function outputs for that user's `completed` pickups plus the rewards of the
distinct challenges the user completed, in every reachable state.  The code
refutes this: `rider_complete` never checks the pickup's current status, so
after creating a Metal x2 pickup, claiming it and completing it twice (a
sequence of the four operations the routes accept), user 1's stored balance
is 32 while the ledger sums to 16. -/
theorem c1_ledger_invariant_fails_on_code :
    getPoints (run initState doubleCompleteTrace) 1 = 32 ∧
    completedPickupScore (run initState doubleCompleteTrace) 1
        + challengeRewardSum (run initState doubleCompleteTrace) 1 = 16 := by
  decide

/-- Claim C2: once a pickup is completed and its owner credited, no further
`completePickup` call on it credits the owner again.  The code refutes this:
after one completed Metal x2 pickup the owner holds 16 points, and a second
`rider_complete` by the assigned rider succeeds and raises the balance to
32. -/
theorem c2_completion_credit_repeats :
    getPoints (run initState singleCompleteTrace) 1 = 16 ∧
    (completePickup (run initState singleCompleteTrace) 1 1).2
        = CompleteResult.ok ∧
    getPoints (completePickup (run initState singleCompleteTrace) 1 1).1 1
        = 32 := by
  decide

/-- Claim C3, counterexample: the pickup-creation handler coerces the form
quantity with `int(...)` and never checks its sign, so creating a Metal
pickup with quantity -1, claiming and completing it drives user 1's balance
from 0 down to -8: the balance is neither non-negative nor non-decreasing
on arbitrary operation sequences. -/
theorem c3_counterexample_negative_quantity :
    getPoints initState 1 = 0 ∧
    getPoints (run initState negativeQtyTrace) 1 = -8 := by
  decide

/-- Claim C5: `calculate_points` equals the spec's contract — the fixed
table value of the category (unknown categories scoring 1) times the
coerced quantity, with an uncoercible or missing quantity treated as 0 —
and in particular scores Cardboard x3 as 15, an unknown category x4 as 4,
and Metal with the uncoercible quantity "bad" as 0. -/
theorem c5_score_refines_spec :
    (∀ item : String, ∀ q : PyVal, calculate_points item q = spec_score item q) ∧
    calculate_points "Cardboard" (PyVal.int 3) = 15 ∧
    calculate_points "Unknown" (PyVal.int 4) = 4 ∧
    calculate_points "Metal" (PyVal.str "bad") = 0 := by
  refine ⟨fun item q => ?_, by decide, by decide, by decide⟩
  unfold calculate_points spec_score spec_table points_map
  simp only [alookup]
  split_ifs <;> rfl

/-- Claim C6: for every category and every integer quantity q >= 0 the
score is non-negative, and every category scores 0 at quantity 0. -/
theorem c6_score_nonneg_and_zero (c : String) (q : Int) (hq : 0 ≤ q) :
    0 ≤ calculate_points c (PyVal.int q) ∧
    calculate_points c (PyVal.int 0) = 0 := by
  constructor
  · have h : calculate_points c (PyVal.int q) = points_map c * q := rfl
    rw [h]
    exact mul_nonneg (points_map_pos c).le hq
  · have h : calculate_points c (PyVal.int 0) = points_map c * 0 := rfl
    rw [h, mul_zero]

theorem c6_witness :
    0 ≤ (3 : Int) ∧
      (0 ≤ calculate_points "Glass" (PyVal.int 3) ∧
        calculate_points "Glass" (PyVal.int 0) = 0) :=
  ⟨by decide, c6_score_nonneg_and_zero "Glass" 3 (by decide)⟩

/-- Claim C10: `calculate_points` is total over its interface (the
embedding is a total function on every item string and every int, string
or missing quantity); a quantity that fails integer coercion yields 0,
a coercible quantity n yields rate x n — so a negative coercible quantity
yields a negative result and the zero floor holds only for non-negative
quantities, e.g. Metal x(-2) scores -16. -/
theorem c10_total_no_floor (item : String) (q : PyVal) :
    (pyToInt q = Option.none → calculate_points item q = 0) ∧
    (∀ n : Int, pyToInt q = some n →
      calculate_points item q = points_map item * n) ∧
    (∀ n : Int, pyToInt q = some n → n < 0 → calculate_points item q < 0) ∧
    calculate_points "Metal" (PyVal.int (-2)) = -16 := by
  refine ⟨?_, ?_, ?_, by decide⟩
  · intro h
    simp [calculate_points, h]
  · intro n h
    simp [calculate_points, h]
  · intro n h hn
    have he : calculate_points item q = points_map item * n := by
      simp [calculate_points, h]
    rw [he]
    exact mul_neg_of_pos_of_neg (points_map_pos item) hn

theorem c10_witness :
    pyToInt (PyVal.str "bad") = Option.none ∧
      calculate_points "Electronics" (PyVal.str "bad") = 0 :=
  ⟨by decide, (c10_total_no_floor "Electronics" (PyVal.str "bad")).1 (by decide)⟩

/-- Claim C4: `completeChallenge` returns NotFound (changing nothing) when
the challenge id has no row; returns AlreadyCompleted (changing nothing,
so the reward was credited exactly once in total) when a completion row for
the pair exists; and on first success returns Ok, inserts the completion
row and credits the reward together, after which a repeat call returns
AlreadyCompleted on the unchanged state. -/
theorem c4_complete_challenge_contract (s : AppState) (uid cid : Nat)
    (u : UserRec) (hu : findUser s uid = some u) :
    (alookup s.challenges cid = Option.none →
      completeChallenge s uid cid = (s, ChallengeResult.notFound)) ∧
    (∀ ch : ChallengeRec, alookup s.challenges cid = some ch →
      (uid, cid) ∈ s.user_challenges →
      completeChallenge s uid cid = (s, ChallengeResult.alreadyCompleted)) ∧
    (∀ ch : ChallengeRec, alookup s.challenges cid = some ch →
      (uid, cid) ∉ s.user_challenges →
      (completeChallenge s uid cid).2 = ChallengeResult.ok ∧
      (completeChallenge s uid cid).1.user_challenges
          = s.user_challenges ++ [(uid, cid)] ∧
      getPoints (completeChallenge s uid cid).1 uid
          = getPoints s uid + ch.points_reward ∧
      completeChallenge (completeChallenge s uid cid).1 uid cid
          = ((completeChallenge s uid cid).1,
              ChallengeResult.alreadyCompleted)) := by
  have hu1 : alookup s.users uid = some u := hu
  refine ⟨fun h => by simp [completeChallenge, h],
    fun ch hch hmem => by simp [completeChallenge, hch, hmem], ?_⟩
  intro ch hch hmem
  have he : completeChallenge s uid cid
      = (⟨aupdate s.users uid
            ⟨u.points + ch.points_reward, u.address, u.tree_level⟩,
          s.pickups, s.next_pickup_id, s.challenges,
          s.user_challenges ++ [(uid, cid)]⟩, ChallengeResult.ok) := by
    simp [completeChallenge, hch, hmem, findUser, hu1]
  refine ⟨by rw [he], by rw [he], ?_, ?_⟩
  · rw [he]
    show ((alookup (aupdate s.users uid
        ⟨u.points + ch.points_reward, u.address, u.tree_level⟩) uid).map
          UserRec.points).getD 0
      = getPoints s uid + ch.points_reward
    rw [alookup_aupdate, hu1]
    show u.points + ch.points_reward = getPoints s uid + ch.points_reward
    rw [show getPoints s uid = u.points from by
      show ((alookup s.users uid).map UserRec.points).getD 0 = u.points
      rw [hu1]
      rfl]
  · rw [he]
    have hmem2 : (uid, cid) ∈ s.user_challenges ++ [(uid, cid)] := by simp
    simp [completeChallenge, hch, hmem2]

theorem c4_witness :
    findUser wState 1 = some ⟨0, Option.none, 0⟩ ∧
      (completeChallenge wState 1 1).2 = ChallengeResult.ok :=
  ⟨by decide,
   ((c4_complete_challenge_contract wState 1 1 ⟨0, Option.none, 0⟩
        (by decide)).2.2 ⟨"c", "d", 20⟩ (by decide) (by decide)).1⟩

/-- Claim C9: `claimPickup` on a pickup whose status is not `requested`
returns AlreadyClaimed and leaves the whole state (in particular the
pickup's rider assignment and status) unchanged; on a `requested` pickup it
returns Ok, leaves the users untouched and stores the pickup with the
calling rider assigned and status `assigned`. -/
theorem c9_claim_pickup_contract (s : AppState) (rid pid : Nat)
    (p : PickupRec) (hp : alookup s.pickups pid = some p) :
    (p.status ≠ PStatus.requested →
      claimPickup s rid pid = (s, ClaimResult.alreadyClaimed)) ∧
    (p.status = PStatus.requested →
      (claimPickup s rid pid).2 = ClaimResult.ok ∧
      (claimPickup s rid pid).1.users = s.users ∧
      alookup (claimPickup s rid pid).1.pickups pid
          = some ⟨p.user_id, p.item_type, p.quantity, p.address,
                  p.preferred_date, p.preferred_time,
                  PStatus.assigned, some rid⟩) := by
  constructor
  · intro h
    simp [claimPickup, hp, h]
  · intro h
    have he : claimPickup s rid pid
        = (⟨s.users,
            aupdate s.pickups pid
              ({ p with rider_id := some rid, status := PStatus.assigned }),
            s.next_pickup_id, s.challenges, s.user_challenges⟩,
           ClaimResult.ok) := by
      simp [claimPickup, hp, h]
    refine ⟨by rw [he], by rw [he], ?_⟩
    rw [he]
    show alookup (aupdate s.pickups pid _) pid = _
    rw [alookup_aupdate, hp]
    rfl

theorem c9_witness :
    alookup wState.pickups 1
        = some ⟨1, "Metal", 2, "a", "2024-01-01", "10:00",
                PStatus.requested, Option.none⟩ ∧
      (claimPickup wState 7 1).2 = ClaimResult.ok :=
  ⟨by decide,
   ((c9_claim_pickup_contract wState 7 1
        ⟨1, "Metal", 2, "a", "2024-01-01", "10:00",
         PStatus.requested, Option.none⟩ (by decide)).2 (by decide)).1⟩

/- Forest stager: characterization of the scan loop on each level band. -/

theorem forestScan_band0 (level : Int) (h0 : 0 ≤ level) (h : level < 5) :
    forestScan level tree_stages seedling (some sprout)
      = (seedling, some sprout) := by
  have hb : ¬ (5 : Int) ≤ level := not_le.mpr h
  simp [forestScan, tree_stages, seedling, sprout, smallTree, growingForest,
    lushEcosystem, h0, hb]

theorem forestScan_band1 (level : Int) (h0 : 5 ≤ level) (h : level < 10) :
    forestScan level tree_stages seedling (some sprout)
      = (sprout, some smallTree) := by
  have ha : (0 : Int) ≤ level := by omega
  have hb : ¬ (10 : Int) ≤ level := not_le.mpr h
  simp [forestScan, tree_stages, seedling, sprout, smallTree, growingForest,
    lushEcosystem, ha, h0, hb]

theorem forestScan_band2 (level : Int) (h0 : 10 ≤ level) (h : level < 20) :
    forestScan level tree_stages seedling (some sprout)
      = (smallTree, some growingForest) := by
  have ha : (0 : Int) ≤ level := by omega
  have hb : (5 : Int) ≤ level := by omega
  have hc : ¬ (20 : Int) ≤ level := not_le.mpr h
  simp [forestScan, tree_stages, seedling, sprout, smallTree, growingForest,
    lushEcosystem, ha, hb, h0, hc]

theorem forestScan_band3 (level : Int) (h0 : 20 ≤ level) (h : level < 50) :
    forestScan level tree_stages seedling (some sprout)
      = (growingForest, some lushEcosystem) := by
  have ha : (0 : Int) ≤ level := by omega
  have hb : (5 : Int) ≤ level := by omega
  have hc : (10 : Int) ≤ level := by omega
  have hd : ¬ (50 : Int) ≤ level := not_le.mpr h
  simp [forestScan, tree_stages, seedling, sprout, smallTree, growingForest,
    lushEcosystem, ha, hb, hc, h0, hd]

theorem forestScan_band4 (level : Int) (h0 : 50 ≤ level) :
    forestScan level tree_stages seedling (some sprout)
      = (lushEcosystem, Option.none) := by
  have ha : (0 : Int) ≤ level := by omega
  have hb : (5 : Int) ≤ level := by omega
  have hc : (10 : Int) ≤ level := by omega
  have hd : (20 : Int) ≤ level := by omega
  simp [forestScan, tree_stages, seedling, sprout, smallTree, growingForest,
    lushEcosystem, ha, hb, hc, hd, h0]

theorem forest_band0 (level : Int) (h0 : 0 ≤ level) (h : level < 5) :
    forest level = ⟨level, seedling, some sprout, (level : ℚ) / 5 * 100⟩ := by
  simp only [forest, forestScan_band0 level h0 h]
  norm_num [seedling, sprout]

theorem forest_band1 (level : Int) (h0 : 5 ≤ level) (h : level < 10) :
    forest level
      = ⟨level, sprout, some smallTree, ((level : ℚ) - 5) / 5 * 100⟩ := by
  simp only [forest, forestScan_band1 level h0 h]
  norm_num [sprout, smallTree]

theorem forest_band2 (level : Int) (h0 : 10 ≤ level) (h : level < 20) :
    forest level
      = ⟨level, smallTree, some growingForest,
          ((level : ℚ) - 10) / 10 * 100⟩ := by
  simp only [forest, forestScan_band2 level h0 h]
  norm_num [smallTree, growingForest]

theorem forest_band3 (level : Int) (h0 : 20 ≤ level) (h : level < 50) :
    forest level
      = ⟨level, growingForest, some lushEcosystem,
          ((level : ℚ) - 20) / 30 * 100⟩ := by
  simp only [forest, forestScan_band3 level h0 h]
  norm_num [growingForest, lushEcosystem]

theorem forest_band4 (level : Int) (h0 : 50 ≤ level) :
    forest level = ⟨level, lushEcosystem, Option.none, 0⟩ := by
  simp only [forest, forestScan_band4 level h0]

theorem ratio_bounds (x r : ℚ) (h0 : 0 ≤ x) (hlt : x < r) :
    0 ≤ x / r * 100 ∧ x / r * 100 < 100 := by
  have hr : 0 < r := lt_of_le_of_lt h0 hlt
  constructor
  · exact mul_nonneg (div_nonneg h0 hr.le) (by norm_num)
  · have h1 : x / r < 1 := (div_lt_one hr).mpr hlt
    calc x / r * 100 < 1 * 100 :=
          mul_lt_mul_of_pos_right h1 (by norm_num)
      _ = 100 := one_mul 100

/-- Claim C7: for every level >= 0, the forest view's current stage is the
table entry with the greatest threshold <= level, its next stage is the
following table entry (none when current is the last), the computation is a
pure function of the level (it is a function of `level` alone by
construction), and the three spec examples hold: stage(0) is Seedling with
next Sprout at 0 percent, stage(7) is Sprout with next Small Tree at 40
percent, and stage(50) is Lush Ecosystem with no next at 0 percent. -/
theorem c7_stage_selection (level : Int) (h : 0 ≤ level) :
    (forest level).stage ∈ tree_stages ∧
    (forest level).stage.threshold ≤ level ∧
    (∀ st ∈ tree_stages, st.threshold ≤ level →
        st.threshold ≤ (forest level).stage.threshold) ∧
    (forest level).next_stage = specNextStage (forest level).stage ∧
    forest 0 = ⟨0, seedling, some sprout, 0⟩ ∧
    forest 7 = ⟨7, sprout, some smallTree, 40⟩ ∧
    forest 50 = ⟨50, lushEcosystem, Option.none, 0⟩ := by
  have main : (forest level).stage ∈ tree_stages ∧
      (forest level).stage.threshold ≤ level ∧
      (∀ st ∈ tree_stages, st.threshold ≤ level →
          st.threshold ≤ (forest level).stage.threshold) ∧
      (forest level).next_stage = specNextStage (forest level).stage := by
    rcases lt_or_le level 5 with h5 | h5
    · rw [forest_band0 level h h5]
      refine ⟨by show seedling ∈ tree_stages; decide, h, ?_,
        by show some sprout = specNextStage seedling; decide⟩
      intro st hst hle
      simp [tree_stages] at hst
      rcases hst with rfl | rfl | rfl | rfl | rfl <;>
        simp [seedling, sprout, smallTree, growingForest, lushEcosystem]
          at hle ⊢ <;> omega
    · rcases lt_or_le level 10 with h10 | h10
      · rw [forest_band1 level h5 h10]
        refine ⟨by show sprout ∈ tree_stages; decide, h5, ?_,
          by show some smallTree = specNextStage sprout; decide⟩
        intro st hst hle
        simp [tree_stages] at hst
        rcases hst with rfl | rfl | rfl | rfl | rfl <;>
          simp [seedling, sprout, smallTree, growingForest, lushEcosystem]
            at hle ⊢ <;> omega
      · rcases lt_or_le level 20 with h20 | h20
        · rw [forest_band2 level h10 h20]
          refine ⟨by show smallTree ∈ tree_stages; decide, h10, ?_,
            by show some growingForest = specNextStage smallTree; decide⟩
          intro st hst hle
          simp [tree_stages] at hst
          rcases hst with rfl | rfl | rfl | rfl | rfl <;>
            simp [seedling, sprout, smallTree, growingForest, lushEcosystem]
              at hle ⊢ <;> omega
        · rcases lt_or_le level 50 with h50 | h50
          · rw [forest_band3 level h20 h50]
            have hnx : some lushEcosystem = specNextStage growingForest := by
              decide
            refine ⟨by show growingForest ∈ tree_stages; decide, h20, ?_, hnx⟩
            intro st hst hle
            simp [tree_stages] at hst
            rcases hst with rfl | rfl | rfl | rfl | rfl <;>
              simp [seedling, sprout, smallTree, growingForest, lushEcosystem]
                at hle ⊢ <;> omega
          · rw [forest_band4 level h50]
            refine ⟨by show lushEcosystem ∈ tree_stages; decide, h50, ?_,
              by show Option.none = specNextStage lushEcosystem; decide⟩
            intro st hst hle
            simp [tree_stages] at hst
            rcases hst with rfl | rfl | rfl | rfl | rfl <;>
              simp [seedling, sprout, smallTree, growingForest, lushEcosystem]
  have hex0 : forest 0 = ⟨0, seedling, some sprout, 0⟩ := by
    rw [forest_band0 0 (by norm_num) (by norm_num),
      show ((0 : Int) : ℚ) / 5 * 100 = 0 from by norm_num]
  have hex7 : forest 7 = ⟨7, sprout, some smallTree, 40⟩ := by
    rw [forest_band1 7 (by norm_num) (by norm_num),
      show (((7 : Int) : ℚ) - 5) / 5 * 100 = 40 from by norm_num]
  have hex50 : forest 50 = ⟨50, lushEcosystem, Option.none, 0⟩ :=
    forest_band4 50 (by norm_num)
  exact ⟨main.1, main.2.1, main.2.2.1, main.2.2.2, hex0, hex7, hex50⟩

theorem c7_witness :
    0 ≤ (7 : Int) ∧ (forest 7).stage ∈ tree_stages :=
  ⟨by decide, (c7_stage_selection 7 (by decide)).1⟩

/-- Claim C8: for every level >= 0 the progress percentage equals
(level - current.threshold) / (next.threshold - current.threshold) * 100
when a next stage exists and the threshold gap is positive, and 0 otherwise
(no next stage, or a non-positive gap), and the percentage always lies in
[0, 100). -/
theorem c8_progress_formula_and_bounds (level : Int) (h : 0 ≤ level) :
    (∀ ns : Stage, (forest level).next_stage = some ns →
        0 < ns.threshold - (forest level).stage.threshold →
        (forest level).progress
          = ((level - (forest level).stage.threshold : Int) : ℚ)
              / ((ns.threshold - (forest level).stage.threshold : Int) : ℚ)
              * 100) ∧
    (∀ ns : Stage, (forest level).next_stage = some ns →
        ¬ 0 < ns.threshold - (forest level).stage.threshold →
        (forest level).progress = 0) ∧
    ((forest level).next_stage = Option.none → (forest level).progress = 0) ∧
    0 ≤ (forest level).progress ∧ (forest level).progress < 100 := by
  rcases lt_or_le level 5 with h5 | h5
  · rw [forest_band0 level h h5]
    have hx0 : (0 : ℚ) ≤ (level : ℚ) := by exact_mod_cast h
    have hx1 : ((level : ℚ)) < 5 := by exact_mod_cast h5
    obtain ⟨hb1, hb2⟩ := ratio_bounds (level : ℚ) 5 hx0 hx1
    refine ⟨?_, ?_, ?_, hb1, hb2⟩
    · intro ns hns hgap
      have hn : sprout = ns := by simpa using hns
      subst hn
      show (level : ℚ) / 5 * 100
          = ((level - seedling.threshold : Int) : ℚ)
              / ((sprout.threshold - seedling.threshold : Int) : ℚ) * 100
      norm_num [seedling, sprout]
    · intro ns hns hgap
      have hn : sprout = ns := by simpa using hns
      subst hn
      exact absurd (by norm_num [seedling, sprout] : (0 : Int)
        < sprout.threshold - seedling.threshold) hgap
    · intro hns
      simp at hns
  · rcases lt_or_le level 10 with h10 | h10
    · rw [forest_band1 level h5 h10]
      have hc : (5 : ℚ) ≤ (level : ℚ) := by exact_mod_cast h5
      have hn10 : ((level : ℚ)) < 10 := by exact_mod_cast h10
      obtain ⟨hb1, hb2⟩ :=
        ratio_bounds ((level : ℚ) - 5) 5 (by linarith) (by linarith)
      refine ⟨?_, ?_, ?_, hb1, hb2⟩
      · intro ns hns hgap
        have hn : smallTree = ns := by simpa using hns
        subst hn
        show ((level : ℚ) - 5) / 5 * 100
            = ((level - sprout.threshold : Int) : ℚ)
                / ((smallTree.threshold - sprout.threshold : Int) : ℚ) * 100
        norm_num [sprout, smallTree]
      · intro ns hns hgap
        have hn : smallTree = ns := by simpa using hns
        subst hn
        exact absurd (by norm_num [sprout, smallTree] : (0 : Int)
          < smallTree.threshold - sprout.threshold) hgap
      · intro hns
        simp at hns
    · rcases lt_or_le level 20 with h20 | h20
      · rw [forest_band2 level h10 h20]
        have hc : (10 : ℚ) ≤ (level : ℚ) := by exact_mod_cast h10
        have hn20 : ((level : ℚ)) < 20 := by exact_mod_cast h20
        obtain ⟨hb1, hb2⟩ :=
          ratio_bounds ((level : ℚ) - 10) 10 (by linarith) (by linarith)
        refine ⟨?_, ?_, ?_, hb1, hb2⟩
        · intro ns hns hgap
          have hn : growingForest = ns := by simpa using hns
          subst hn
          show ((level : ℚ) - 10) / 10 * 100
              = ((level - smallTree.threshold : Int) : ℚ)
                  / ((growingForest.threshold - smallTree.threshold : Int) : ℚ)
                  * 100
          norm_num [smallTree, growingForest]
        · intro ns hns hgap
          have hn : growingForest = ns := by simpa using hns
          subst hn
          exact absurd (by norm_num [smallTree, growingForest] : (0 : Int)
            < growingForest.threshold - smallTree.threshold) hgap
        · intro hns
          simp at hns
      · rcases lt_or_le level 50 with h50 | h50
        · rw [forest_band3 level h20 h50]
          have hc : (20 : ℚ) ≤ (level : ℚ) := by exact_mod_cast h20
          have hn50 : ((level : ℚ)) < 50 := by exact_mod_cast h50
          obtain ⟨hb1, hb2⟩ :=
            ratio_bounds ((level : ℚ) - 20) 30 (by linarith) (by linarith)
          refine ⟨?_, ?_, ?_, hb1, hb2⟩
          · intro ns hns hgap
            have hn : lushEcosystem = ns := by simpa using hns
            subst hn
            show ((level : ℚ) - 20) / 30 * 100
                = ((level - growingForest.threshold : Int) : ℚ)
                    / ((lushEcosystem.threshold
                          - growingForest.threshold : Int) : ℚ) * 100
            norm_num [growingForest, lushEcosystem]
          · intro ns hns hgap
            have hn : lushEcosystem = ns := by simpa using hns
            subst hn
            exact absurd (by norm_num [growingForest, lushEcosystem] : (0 : Int)
              < lushEcosystem.threshold - growingForest.threshold) hgap
          · intro hns
            simp at hns
        · rw [forest_band4 level h50]
          refine ⟨?_, ?_, fun _ => rfl, le_refl 0, ?_⟩
          · intro ns hns hgap
            simp at hns
          · intro ns hns hgap
            simp at hns
          · show (0 : ℚ) < 100
            norm_num

theorem c8_witness :
    0 ≤ (7 : Int) ∧
      (0 ≤ (forest 7).progress ∧ (forest 7).progress < 100) :=
  ⟨by decide, ⟨(c8_progress_formula_and_bounds 7 (by decide)).2.2.2.1,
    (c8_progress_formula_and_bounds 7 (by decide)).2.2.2.2⟩⟩

/- Point-balance monotonicity machinery for the amended claim C3. -/

theorem getPoints_le_aupdate (s s2 : AppState) (uid : Nat) (v : UserRec)
    (h2 : s2.users = aupdate s.users uid v)
    (hv : ∀ u, alookup s.users uid = some u → u.points ≤ v.points)
    (j : Nat) :
    getPoints s j ≤ getPoints s2 j := by
  unfold getPoints findUser
  rw [h2]
  by_cases hj : j = uid
  · subst hj
    rw [alookup_aupdate]
    cases hl : alookup s.users j with
    | none => simp
    | some u => simpa using hv u hl
  · rw [alookup_aupdate_ne _ _ _ _ hj]

theorem getPoints_step_le (s : AppState) (op : Op) (hs : StateOk s)
    (hop : OpOk op) (j : Nat) :
    getPoints s j ≤ getPoints (step s op) j := by
  cases op with
  | createPickup uid item qty a d t =>
    show getPoints s j ≤ getPoints (createPickup s uid item qty a d t) j
    cases hu : findUser s uid with
    | none => simp [createPickup, hu]
    | some u =>
      simp only [createPickup, hu]
      refine getPoints_le_aupdate s _ uid _ rfl ?_ j
      intro u0 hu0
      have heq : u0 = u := by
        rw [show alookup s.users uid = some u from hu] at hu0
        exact (Option.some.inj hu0).symm
      subst heq
      split <;> split <;> exact le_rfl
  | claimPickup rid pid =>
    show getPoints s j ≤ getPoints (claimPickup s rid pid).1 j
    cases hp : alookup s.pickups pid with
    | none => simp [claimPickup, hp]
    | some p =>
      by_cases hst : p.status ≠ PStatus.requested
      · simp [claimPickup, hp, hst]
      · simp only [claimPickup, hp, hst]
        exact le_rfl
  | completePickup rid pid =>
    show getPoints s j ≤ getPoints (completePickup s rid pid).1 j
    cases hp : alookup s.pickups pid with
    | none => simp [completePickup, hp]
    | some p =>
      by_cases hr : p.rider_id ≠ some rid
      · simp [completePickup, hp, hr]
      · have hq : 0 ≤ p.quantity := hs.1 (pid, p) (alookup_mem hp)
        have hpts : 0 ≤ calculate_points p.item_type (.int p.quantity) := by
          have : calculate_points p.item_type (.int p.quantity)
              = points_map p.item_type * p.quantity := rfl
          rw [this]
          exact mul_nonneg (points_map_pos p.item_type).le hq
        simp only [completePickup, hp, hr]
        cases hu : alookup s.users p.user_id with
        | none =>
          simp only [findUser, hu]
          exact le_rfl
        | some u =>
          simp only [findUser, hu]
          refine getPoints_le_aupdate s _ p.user_id _ rfl ?_ j
          intro u0 hu0
          have heq : u0 = u := by
            rw [hu] at hu0
            exact (Option.some.inj hu0).symm
          subst heq
          exact le_add_of_nonneg_right hpts
  | completeChallenge uid cid =>
    show getPoints s j ≤ getPoints (completeChallenge s uid cid).1 j
    cases hc : alookup s.challenges cid with
    | none => simp [completeChallenge, hc]
    | some ch =>
      by_cases hm : (uid, cid) ∈ s.user_challenges
      · simp [completeChallenge, hc, hm]
      · have hrw : 0 ≤ ch.points_reward := hs.2 (cid, ch) (alookup_mem hc)
        simp only [completeChallenge, hc, hm]
        cases hu : alookup s.users uid with
        | none =>
          simp only [findUser, hu]
          exact le_rfl
        | some u =>
          simp only [findUser, hu]
          refine getPoints_le_aupdate s _ uid _ rfl ?_ j
          intro u0 hu0
          have heq : u0 = u := by
            rw [hu] at hu0
            exact (Option.some.inj hu0).symm
          subst heq
          exact le_add_of_nonneg_right hrw

theorem stateOk_step (s : AppState) (op : Op) (hs : StateOk s)
    (hop : OpOk op) : StateOk (step s op) := by
  cases op with
  | createPickup uid item qty a d t =>
    show StateOk (createPickup s uid item qty a d t)
    cases hu : findUser s uid with
    | none => simpa [createPickup, hu] using hs
    | some u =>
      simp only [createPickup, hu]
      constructor
      · intro e he
        rcases List.mem_append.mp he with h1 | h1
        · exact hs.1 e h1
        · simp at h1
          rw [h1]
          exact hop
      · intro e he
        exact hs.2 e he
  | claimPickup rid pid =>
    show StateOk (claimPickup s rid pid).1
    cases hp : alookup s.pickups pid with
    | none => simpa [claimPickup, hp] using hs
    | some p =>
      by_cases hst : p.status ≠ PStatus.requested
      · simpa [claimPickup, hp, hst] using hs
      · simp only [claimPickup, hp, hst]
        constructor
        · intro e he
          rcases mem_aupdate he with h1 | h1
          · rw [h1]
            exact hs.1 (pid, p) (alookup_mem hp)
          · exact hs.1 e h1
        · intro e he
          exact hs.2 e he
  | completePickup rid pid =>
    show StateOk (completePickup s rid pid).1
    cases hp : alookup s.pickups pid with
    | none => simpa [completePickup, hp] using hs
    | some p =>
      by_cases hr : p.rider_id ≠ some rid
      · simpa [completePickup, hp, hr] using hs
      · simp only [completePickup, hp, hr]
        cases hu : alookup s.users p.user_id with
        | none =>
          simp only [findUser, hu]
          constructor
          · intro e he
            rcases mem_aupdate he with h1 | h1
            · rw [h1]
              exact hs.1 (pid, p) (alookup_mem hp)
            · exact hs.1 e h1
          · intro e he
            exact hs.2 e he
        | some u =>
          simp only [findUser, hu]
          constructor
          · intro e he
            rcases mem_aupdate he with h1 | h1
            · rw [h1]
              exact hs.1 (pid, p) (alookup_mem hp)
            · exact hs.1 e h1
          · intro e he
            exact hs.2 e he
  | completeChallenge uid cid =>
    show StateOk (completeChallenge s uid cid).1
    cases hc : alookup s.challenges cid with
    | none => simpa [completeChallenge, hc] using hs
    | some ch =>
      by_cases hm : (uid, cid) ∈ s.user_challenges
      · simpa [completeChallenge, hc, hm] using hs
      · simp only [completeChallenge, hc, hm]
        cases hu : alookup s.users uid with
        | none =>
          simp only [findUser, hu]
          exact hs
        | some u =>
          simp only [findUser, hu]
          exact hs

theorem run_points_mono (s : AppState) (ops : List Op) (hs : StateOk s)
    (hops : ∀ op ∈ ops, OpOk op) (j : Nat) :
    getPoints s j ≤ getPoints (run s ops) j := by
  induction ops generalizing s with
  | nil => exact le_rfl
  | cons o t ih =>
    have h1 := getPoints_step_le s o hs (hops o (by simp)) j
    have h2 := ih (step s o) (stateOk_step s o hs (hops o (by simp)))
      (fun op hop => hops op (by simp [hop]))
    exact le_trans h1 h2

/-- Claim C3 (amended): provided every stored pickup quantity, every
challenge reward and every created pickup's quantity is non-negative — the
constraints the spec's data model imposes but the routes never check — each
user's stored point balance never decreases across any sequence of the four
core operations, and stays non-negative whenever it starts non-negative.
(As stated, over arbitrary operation sequences, the claim is false: see the
negative-quantity counterexample.) -/
theorem c3_points_monotone_nonneg (s : AppState) (ops : List Op) (j : Nat)
    (hs : StateOk s) (hops : ∀ op ∈ ops, OpOk op)
    (h0 : 0 ≤ getPoints s j) :
    getPoints s j ≤ getPoints (run s ops) j ∧
    0 ≤ getPoints (run s ops) j := by
  have hm := run_points_mono s ops hs hops j
  exact ⟨hm, le_trans h0 hm⟩

theorem c3_witness :
    (StateOk initState ∧ (∀ op ∈ singleCompleteTrace, OpOk op) ∧
        0 ≤ getPoints initState 1) ∧
      (getPoints initState 1 ≤ getPoints (run initState singleCompleteTrace) 1 ∧
        0 ≤ getPoints (run initState singleCompleteTrace) 1) :=
  ⟨⟨by decide, by decide, by decide⟩,
    c3_points_monotone_nonneg initState singleCompleteTrace 1 (by decide)
      (by decide) (by decide)⟩

end Greenlife
